/-
Verification of the archaeological-agent pipeline (Python repository).

Shallow embedding: each Python function relevant to the verified properties
is translated into a Lean definition.  Python strings are modelled through
their code-point sequences (`String.data : List Char`), which matches
the Python `len`, slicing, `in`, `lower`, `endswith` semantics on the ASCII
inputs the program manipulates.  Network calls (OpenAI, Google Drive) and
file-system effects are modelled as explicit functional parameters
("oracles"); where a property speaks about whether an effect happens, the
embedding is instrumented with counters or flags that are set exactly on
the control-flow paths that perform the effect in the source.
-/
import Mathlib

namespace FLL

/-! ## Python string primitives -/

/-- Python `s.lower()`: lowercase each code point
(`str.lower` on the ASCII data handled by this program). -/
def pyLower (s : String) : String := ⟨s.data.map Char.toLower⟩

/-- Whether `pat` is an initial run of `l` (code points). -/
def startsChars : List Char → List Char → Bool
  | [], _ => true
  | _ :: _, [] => false
  | c :: cs, d :: ds => c == d && startsChars cs ds

/-- Whether `pat` occurs contiguously inside `l`. -/
def containsChars (pat : List Char) : List Char → Bool
  | [] => pat.isEmpty
  | c :: rest => startsChars pat (c :: rest) || containsChars pat rest

/-- Python `pat in s` for strings: substring containment. -/
def pyIn (pat s : String) : Bool := containsChars pat.data s.data

/-- Python `s[:n]`: the first `n` code points of `s`. -/
def pySlice (s : String) (n : Nat) : String := ⟨s.data.take n⟩

/-- Python `s.endswith(suf)`: `suf` is a suffix of `s` (code points). -/
def pyEndsWith (s suf : String) : Bool := List.isSuffixOf suf.data s.data

/-- Python `s.startswith(pre)`: `pre` is an initial run of `s`. -/
def pyStartsWith (s pre : String) : Bool := startsChars pre.data s.data

/-! ## `image_converter.py` -/

/--
The function `ensure_jpg_format(image_path)` from `image_converter.py`.

The conversion routine `convert_to_jpg` (a subprocess call to `sips`, then
PIL, both writing a sibling `.jpg` file) is the only code path that touches
the file system; it is passed in as the oracle `convert_to_jpg`.  The
returned boolean records whether that conversion path was entered, i.e.
whether any file I/O was performed.
-/
def ensure_jpg_format (convert_to_jpg : String → String) (image_path : String) :
    String × Bool :=
  let image_path_lower := pyLower image_path
  if pyEndsWith image_path_lower ".jpg" || pyEndsWith image_path_lower ".jpeg" then
    (image_path, false)
  else
    (convert_to_jpg image_path, true)

/-! ## `audio_generator.py` -/

/--
The text actually handed to the speech engine by
`AudioGenerator.text_to_speech` (`audio_generator.py`, the
`max_length = 5000` truncation guard before `gTTS(text=text, ...)`).
-/
def text_to_speech_engine_text (text : String) : String :=
  let max_length : Nat := 5000
  if text.length > max_length then pySlice text max_length ++ "..." else text

/-- An artifact record: the four string fields produced by
`ImageAnalyzer.extract_artifacts`. -/
structure Artifact where
  name : String
  time_period : String
  country_of_origin : String
  additional_info : String
deriving DecidableEq

/-! ## `image_analyzer.py`: extraction response parsing -/

/-- A parsed JSON value (the result of `json.loads` on the extraction
response).  Objects are kept in Python dict iteration order; `json.loads`
produces dicts with unique keys. -/
inductive Json where
  | null : Json
  | bool : Bool → Json
  | num : Int → Json
  | str : String → Json
  | arr : List Json → Json
  | obj : List (String × Json) → Json

/-- Python `key in result` for a dict. -/
def dictHas (kvs : List (String × Json)) (k : String) : Bool :=
  kvs.any (fun kv => kv.1 == k)

/-- Python `result[key]` for a dict (keys are unique, see `Json.obj`). -/
def dictGet (kvs : List (String × Json)) (k : String) : Json :=
  match kvs.find? (fun kv => kv.1 == k) with
  | some kv => kv.2
  | none => .null

/-- The `for key, value in result.items()` loop of `extract_artifacts`
(`image_analyzer.py` lines 206-211): values that are dicts carrying a
`name` key are appended, values that are lists are concatenated in, all
other values are skipped. -/
def flattenVals : List (String × Json) → List Json
  | [] => []
  | (_, v) :: rest =>
    match v with
    | .obj fields =>
      if dictHas fields "name" then .obj fields :: flattenVals rest
      else flattenVals rest
    | .arr vs => vs ++ flattenVals rest
    | _ => flattenVals rest

/--
The shape-dispatch of `extract_artifacts` (`image_analyzer.py` lines
200-214) applied to the parsed model response: a bare list is returned
as-is; a dict with an `artifacts` key returns the value stored under that key; any other
dict is flattened value-by-value (empty flattening yields `[]`); anything
else yields `[]`.  The Python function returns a Python value; a returned
list is modelled as `Json.arr`.
-/
def parseExtractionResult (result : Json) : Json :=
  match result with
  | .arr xs => .arr xs
  | .obj kvs =>
    if dictHas kvs "artifacts" then dictGet kvs "artifacts"
    else
      let artifacts := flattenVals kvs
      if artifacts.isEmpty then .arr [] else .arr artifacts
  | _ => .arr []

/-! ## `image_analyzer.py`: keyword-scan fallback of `extract_artifacts` -/

/-- The `additional_info` truncation used by every fallback record:
`analysis[:100] + "..." if len(analysis) > 100 else analysis`. -/
def fallbackInfo (analysis : String) : String :=
  if analysis.length > 100 then pySlice analysis 100 ++ "..." else analysis

/-- The records appended for one `analysis` string by one iteration of the
fallback loop of `extract_artifacts` (`image_analyzer.py` lines 220-263). -/
def keywordRecords (analysis : String) : List Artifact :=
  let analysis_lower := pyLower analysis
  (if pyIn "coin" analysis_lower then
    if pyIn "penny" analysis_lower || pyIn "dime" analysis_lower ||
        pyIn "modern" analysis_lower then
      [⟨"Coin", "Modern (2000-2024)", "United States", fallbackInfo analysis⟩]
    else
      [⟨"Coin", "Unknown (possibly Ancient)", "Unknown", fallbackInfo analysis⟩]
  else []) ++
  (if pyIn "pot" analysis_lower || pyIn "vessel" analysis_lower then
    [⟨"Brass Pot", "Medieval to Modern (1000-1800 CE)", "Middle East or Europe",
      fallbackInfo analysis⟩]
  else []) ++
  (if pyIn "sword" analysis_lower then
    [⟨"Sword", "Medieval to Ancient (500 BCE - 1500 CE)", "Europe or Middle East",
      fallbackInfo analysis⟩]
  else []) ++
  (if pyIn "bone" analysis_lower then
    [⟨"Bone", "Unknown (Prehistoric to Modern)", "Unknown", fallbackInfo analysis⟩]
  else []) ++
  (if pyIn "drawing" analysis_lower || pyIn "carving" analysis_lower then
    [⟨"Stone Drawing", "Prehistoric to Ancient (3000 BCE - 500 CE)",
      "Various (depends on style)", fallbackInfo analysis⟩]
  else [])

/-- The whole fallback branch of `extract_artifacts`: the per-analysis
records, accumulated over `all_analyses` in order. -/
def fallbackExtract (all_analyses : List String) : List Artifact :=
  (all_analyses.map keywordRecords).flatten

/-! ## `image_analyzer.py`: `analyze_multiple_images` -/

/-- The dictionary returned by `ImageAnalyzer.analyze_image`:
`{"success": ..., "analysis": ...}`. -/
structure AnalyzeResult where
  success : Bool
  analysis : String

/-- The external collaborators of the pipeline: the conversion result of
the format normalizer and the three model calls.  `composeOracle` is the
narration-styling chat completion, which may fail (`Except.error`). -/
structure PipelineEnv where
  ensureJpg : String → String
  recognize : String → AnalyzeResult
  extractOracle : List String → List Artifact
  composeOracle : List String → Except Unit String

/-- The `jpg_image_paths` accumulator of the per-image loop of
`analyze_multiple_images` (`image_analyzer.py` lines 290-295): every input
path is normalized and appended, unconditionally. -/
def collectJpgPaths (env : PipelineEnv) : List String → List String
  | [] => []
  | p :: ps => env.ensureJpg p :: collectJpgPaths env ps

/-- The `all_analyses` accumulator of the same loop (lines 296-300): the
normalized path is analyzed and the analysis text is kept only when the
recognition call reports success. -/
def collectAnalyses (env : PipelineEnv) : List String → List String
  | [] => []
  | p :: ps =>
    let result := env.recognize (env.ensureJpg p)
    if result.success then result.analysis :: collectAnalyses env ps
    else collectAnalyses env ps

/-- The observable result of one `analyze_multiple_images` run, with call
counters for the extraction and composition model calls. -/
structure PipelineRun where
  narration : String
  jpg_image_paths : List String
  artifacts : List Artifact
  extractCalls : Nat
  composeCalls : Nat

/--
The method `ImageAnalyzer.analyze_multiple_images` (`image_analyzer.py`
lines 266-363): per-image normalization and recognition; the sentinel early
return when no analysis succeeded (lines 302-304); otherwise one
extraction call, then one composition call whose failure falls back to
joining the findings with a blank line (lines 359-363).
-/
def analyze_multiple_images (env : PipelineEnv) (image_paths : List String) :
    PipelineRun :=
  let jpg_image_paths := collectJpgPaths env image_paths
  let all_analyses := collectAnalyses env image_paths
  if all_analyses.isEmpty then
    { narration := "Unable to analyze any images.",
      jpg_image_paths := jpg_image_paths, artifacts := [],
      extractCalls := 0, composeCalls := 0 }
  else
    let artifacts := env.extractOracle all_analyses
    match env.composeOracle all_analyses with
    | .ok narrationText =>
      { narration := narrationText, jpg_image_paths := jpg_image_paths,
        artifacts := artifacts, extractCalls := 1, composeCalls := 1 }
    | .error _ =>
      { narration := String.intercalate "\n\n" all_analyses,
        jpg_image_paths := jpg_image_paths, artifacts := artifacts,
        extractCalls := 1, composeCalls := 1 }

/-! ## `main.py`: tuple unpacking after `analyze_multiple_images` -/

/-- A Python runtime value, restricted to the components flowing through
the `narration_result` tuple in `main`. -/
inductive PyVal where
  | str : String → PyVal
  | strList : List String → PyVal
  | artifactList : List Artifact → PyVal
deriving DecidableEq

/-- Python exceptions distinguished by the control flow of `main`. -/
inductive PyExc where
  | valueError
deriving DecidableEq

/-- The Python statement `a, b = t` on a tuple `t`: succeeds exactly when `t` has two
components, otherwise raises `ValueError` (too many / not enough values to
unpack). -/
def pyUnpack2 (t : List PyVal) : Except PyExc (PyVal × PyVal) :=
  match t with
  | [a, b] => .ok (a, b)
  | _ => .error .valueError

/-- The observable outcome of a `main` run, for the portion after
`analyze_multiple_images` returns. -/
structure MainOutcome where
  reachedAudio : Bool
  reachedPresentation : Bool
  exitCode : Nat
deriving DecidableEq

/-- The 3-tuple returned by `analyze_multiple_images`, as the Python tuple
value bound to `narration_result` in `main` (`main.py` line 87). -/
def narrationResultTuple (r : String × List String × List Artifact) : List PyVal :=
  [.str r.1, .strList r.2.1, .artifactList r.2.2]

/--
The tail of `main.py` (lines 87-134), given the value returned by
`analyze_multiple_images`.  `narration_result` is a tuple, so the
`isinstance(narration_result, tuple)` test succeeds and
`narration_text, jpg_image_paths = narration_result` is executed; if that
unpacking raises, control jumps to the `except Exception` handler, which
prints the error, runs the `finally` cleanup and lets `main` return
normally (process exit code 0).  On successful unpacking the run proceeds
to audio generation (`text_to_speech`) and, when that reports success
(`ttsOk`), to presentation creation.
-/
def main_after_analyze (ttsOk : Bool)
    (narrationResult : String × List String × List Artifact) : MainOutcome :=
  match pyUnpack2 (narrationResultTuple narrationResult) with
  | .ok _ =>
    if ttsOk then
      { reachedAudio := true, reachedPresentation := true, exitCode := 0 }
    else
      { reachedAudio := true, reachedPresentation := false, exitCode := 0 }
  | .error _ =>
    { reachedAudio := false, reachedPresentation := false, exitCode := 0 }

/-! ## Python string comparison (used for timestamp sorting) -/

/-- Lexicographic strict order on code-point sequences: the Python `<` on
strings. -/
def lexLtChars : List Char → List Char → Bool
  | [], [] => false
  | [], _ :: _ => true
  | _ :: _, [] => false
  | c :: cs, d :: ds => c < d || (c == d && lexLtChars cs ds)

/-- Python `a < b` on strings. -/
def pyStrLt (a b : String) : Bool := lexLtChars a.data b.data

/-- Python `a <= b` on strings (total order: not `b < a`). -/
def pyStrLe (a b : String) : Bool := !pyStrLt b a

/-! ## `google_drive.py` -/

/-- The metadata fields requested per file from the Drive listing
(`files(id, name, createdTime, modifiedTime, mimeType, size)`).
`createdTime` models `file.get("createdTime", "")` (a missing key is the
empty string); `modifiedTime` models `file.get("modifiedTime")` (a missing
key is `none`). -/
structure DriveFile where
  id : String
  name : String
  createdTime : String
  modifiedTime : Option String
  mimeType : String
deriving DecidableEq

/-- The set `config.IMAGE_EXTENSIONS` (`config.py` lines 14-21). -/
def IMAGE_EXTENSIONS : List String :=
  [".jpg", ".jpeg", ".png", ".heic", ".HEIC", ".gif", ".bmp", ".webp"]

/-- The inner `get_timestamp` of `download_recent_images`
(`google_drive.py` lines 197-199):
`file.get("modifiedTime") or file.get("createdTime", "")` — the modified
time when present and non-empty (Python truthiness), else the created
time. -/
def get_timestamp (file : DriveFile) : String :=
  match file.modifiedTime with
  | some m => if m = "" then file.createdTime else m
  | none => file.createdTime

/-- The image filter of `download_recent_images` (lines 182-194): the
lowercased file name ends in a known image extension, or the MIME type
starts with `image/`. -/
def is_image_file (file : DriveFile) : Bool :=
  IMAGE_EXTENSIONS.any (fun ext => pyEndsWith (pyLower file.name) (pyLower ext)) ||
  pyStartsWith file.mimeType "image/"

/--
The selection logic of `download_recent_images` (lines 177-212): filter
the listing to image files, sort by `get_timestamp` newest-first with
the stable Python `list.sort(key=get_timestamp, reverse=True)` (equal keys
keep their listing order), and keep the first `num_images` entries.
`List.mergeSort` with the descending comparison is stable, matching
the Python sort.
-/
def select_recent_image_files (files : List DriveFile) (num_images : Nat) :
    List DriveFile :=
  let image_files := files.filter is_image_file
  let sorted := image_files.mergeSort
    (fun a b => pyStrLe (get_timestamp b) (get_timestamp a))
  sorted.take num_images

/--
The method `GoogleDriveDownloader.download_recent_images` (lines 158-219),
given the
folder listing `files` (the Drive response to
`orderBy="modifiedTime desc,createdTime desc"`) and the per-file
`download_file` oracle (`none` models a failed download, which is
skipped). -/
def download_recent_images (download : DriveFile → Option String)
    (files : List DriveFile) (num_images : Nat) : List String :=
  (select_recent_image_files files num_images).filterMap download

/-- The listing order the code requests from the Drive service
(`list_files_in_folder`, line 116: `orderBy="modifiedTime desc,createdTime
desc"`): modified time descending, ties broken by created time
descending.  A missing `modifiedTime` is compared as the empty string. -/
def driveListOrder (a b : DriveFile) : Prop :=
  pyStrLt (b.modifiedTime.getD "") (a.modifiedTime.getD "") = true ∨
  (a.modifiedTime.getD "" = b.modifiedTime.getD "" ∧
    pyStrLe b.createdTime a.createdTime = true)

/-- "Most recently modified first, ties broken by created time": the
timestamp key strictly newer, or equal keys with created time
descending. -/
def recencyOrder (a b : DriveFile) : Prop :=
  pyStrLt (get_timestamp b) (get_timestamp a) = true ∨
  (get_timestamp a = get_timestamp b ∧ pyStrLe b.createdTime a.createdTime = true)

instance : DecidableRel driveListOrder := fun a b => by
  unfold driveListOrder; infer_instance

instance : DecidableRel recencyOrder := fun a b => by
  unfold recencyOrder; infer_instance

/-- A concrete Drive folder listing in the order the service returns it
(modified time descending, created time breaking ties), used to
instantiate the selection theorem. -/
def driveWitnessFiles : List DriveFile :=
  [⟨"idA", "IMG_2.jpg", "2024-03-01T10:00:00", some "2024-03-05T10:00:00",
      "image/jpeg"⟩,
    ⟨"idB", "notes.txt", "2024-03-04T10:00:00", some "2024-03-04T10:00:00",
      "text/plain"⟩,
    ⟨"idC", "IMG_1.png", "2024-03-02T10:00:00", some "2024-03-03T10:00:00",
      "image/png"⟩]

/-! ## Helper lemmas -/

theorem lexLt_irrefl : ∀ l : List Char, lexLtChars l l = false
  | [] => rfl
  | c :: cs => by simp [lexLtChars, lexLt_irrefl cs]

theorem lexLt_trans : ∀ (a b c : List Char), lexLtChars a b = true →
    lexLtChars b c = true → lexLtChars a c = true
  | [], [], _, hab, _ => by simp [lexLtChars] at hab
  | [], _ :: _, [], _, hbc => by simp [lexLtChars] at hbc
  | [], _ :: _, _ :: _, _, _ => rfl
  | _ :: _, [], _, hab, _ => by simp [lexLtChars] at hab
  | _ :: _, _ :: _, [], _, hbc => by simp [lexLtChars] at hbc
  | x :: xs, y :: ys, z :: zs, hab, hbc => by
    simp only [lexLtChars, Bool.or_eq_true, Bool.and_eq_true, beq_iff_eq,
      decide_eq_true_eq] at hab hbc ⊢
    rcases hab with h1 | ⟨rfl, h2⟩
    · rcases hbc with h3 | ⟨rfl, h4⟩
      · exact Or.inl (lt_trans h1 h3)
      · exact Or.inl h1
    · rcases hbc with h3 | ⟨rfl, h4⟩
      · exact Or.inl h3
      · exact Or.inr ⟨rfl, lexLt_trans _ _ _ h2 h4⟩

theorem lexLt_asymm (a b : List Char) (h : lexLtChars a b = true) :
    lexLtChars b a = false := by
  cases hba : lexLtChars b a with
  | false => rfl
  | true =>
    have hf := lexLt_trans a b a h hba
    rw [lexLt_irrefl] at hf
    exact absurd hf (by simp)

theorem lexLt_connex : ∀ (a b : List Char), lexLtChars a b = false →
    lexLtChars b a = false → a = b
  | [], [], _, _ => rfl
  | [], _ :: _, hab, _ => by simp [lexLtChars] at hab
  | _ :: _, [], _, hba => by simp [lexLtChars] at hba
  | x :: xs, y :: ys, hab, hba => by
    simp only [lexLtChars, Bool.or_eq_false_iff, Bool.and_eq_false_iff,
      beq_eq_false_iff_ne, ne_eq, decide_eq_false_iff_not] at hab hba
    have hxy : x = y := le_antisymm (le_of_not_lt hba.1) (le_of_not_lt hab.1)
    subst hxy
    have h2 : lexLtChars xs ys = false := by
      rcases hab.2 with h | h
      · exact absurd rfl h
      · exact h
    have h3 : lexLtChars ys xs = false := by
      rcases hba.2 with h | h
      · exact absurd rfl h
      · exact h
    rw [lexLt_connex xs ys h2 h3]

theorem lexLt_false_cases (a b : List Char) (h : lexLtChars a b = false) :
    a = b ∨ lexLtChars b a = true := by
  cases hba : lexLtChars b a with
  | true => exact Or.inr rfl
  | false => exact Or.inl (lexLt_connex a b h hba)

theorem pyStrLe_refl (a : String) : pyStrLe a a = true := by
  unfold pyStrLe pyStrLt
  rw [lexLt_irrefl]
  rfl

theorem pyStrLe_of_lt (a b : String) (h : pyStrLt a b = true) :
    pyStrLe a b = true := by
  unfold pyStrLe
  unfold pyStrLt at h ⊢
  rw [lexLt_asymm _ _ h]
  rfl

theorem pyStrLe_trans (a b c : String) (h1 : pyStrLe a b = true)
    (h2 : pyStrLe b c = true) : pyStrLe a c = true := by
  unfold pyStrLe pyStrLt at h1 h2 ⊢
  simp only [Bool.not_eq_true'] at h1 h2 ⊢
  cases hca : lexLtChars c.data a.data with
  | false => rfl
  | true =>
    rcases lexLt_false_cases _ _ h2 with he | hlt
    · rw [he] at hca
      rw [h1] at hca
      exact hca.symm
    · have := lexLt_trans _ _ _ hlt hca
      rw [h1] at this
      exact this.symm

theorem pyStrLe_total (a b : String) :
    (pyStrLe a b || pyStrLe b a) = true := by
  unfold pyStrLe pyStrLt
  cases h : lexLtChars b.data a.data with
  | false => simp
  | true => simp [lexLt_asymm _ _ h]

/-- A JSON value that is an object carrying a `name` key — the values the
object-of-records fallback branch of `extract_artifacts` keeps. -/
def isNamedRecord : Json → Bool
  | .obj fields => dictHas fields "name"
  | _ => false

theorem dictHas_zip_false (ks : List String) (vs : List Json)
    (hkeys : ∀ k ∈ ks, k ≠ "artifacts") :
    dictHas (ks.zip vs) "artifacts" = false := by
  simp only [dictHas, List.any_eq_false]
  intro kv hkv
  have hk : kv.1 ∈ ks := (List.of_mem_zip hkv).1
  simp only [Bool.not_eq_true]
  exact beq_eq_false_iff_ne.mpr (hkeys kv.1 hk)

theorem flattenVals_zip (ks : List String) (rs : List Json)
    (hlen : ks.length = rs.length)
    (hrec : ∀ r ∈ rs, isNamedRecord r = true) :
    flattenVals (ks.zip rs) = rs := by
  induction ks generalizing rs with
  | nil =>
    cases rs with
    | nil => rfl
    | cons r rs => simp at hlen
  | cons k ks ih =>
    cases rs with
    | nil => simp at hlen
    | cons r rs =>
      have hr := hrec r (List.mem_cons_self r rs)
      cases r with
      | obj fields =>
        simp only [isNamedRecord] at hr
        simp only [List.zip_cons_cons, flattenVals, hr, if_true, List.cons.injEq,
          true_and]
        exact ih rs (by simpa using hlen)
          fun q hq => hrec q (List.mem_cons_of_mem (Json.obj fields) hq)
      | null => simp [isNamedRecord] at hr
      | bool b => simp [isNamedRecord] at hr
      | num n => simp [isNamedRecord] at hr
      | str t => simp [isNamedRecord] at hr
      | arr vs => simp [isNamedRecord] at hr

theorem flattenVals_zip_arrays (ks : List String) (rss : List (List Json))
    (hlen : ks.length = rss.length) :
    flattenVals (ks.zip (rss.map Json.arr)) = rss.flatten := by
  induction ks generalizing rss with
  | nil =>
    cases rss with
    | nil => rfl
    | cons r rs => simp at hlen
  | cons k ks ih =>
    cases rss with
    | nil => simp at hlen
    | cons vs rss =>
      simp only [List.map_cons, List.zip_cons_cons, flattenVals, List.flatten_cons,
        List.append_cancel_left_eq]
      exact ih rss (by simpa using hlen)

theorem collectJpgPaths_eq_map (env : PipelineEnv) :
    ∀ ps : List String, collectJpgPaths env ps = ps.map env.ensureJpg
  | [] => rfl
  | p :: ps => by
    simp only [collectJpgPaths, List.map_cons, List.cons.injEq, true_and]
    exact collectJpgPaths_eq_map env ps

theorem collectAnalyses_length_le (env : PipelineEnv) :
    ∀ ps : List String, (collectAnalyses env ps).length ≤ ps.length
  | [] => Nat.le_refl _
  | p :: ps => by
    simp only [collectAnalyses]
    split
    · simpa using collectAnalyses_length_le env ps
    · exact Nat.le_trans (collectAnalyses_length_le env ps) (Nat.le_succ _)

theorem collectAnalyses_nil_of_fail (env : PipelineEnv) :
    ∀ ps : List String,
      (∀ p ∈ ps, (env.recognize (env.ensureJpg p)).success = false) →
      collectAnalyses env ps = []
  | [], _ => rfl
  | p :: ps, h => by
    simp only [collectAnalyses, h p (List.mem_cons_self p ps), if_neg Bool.false_ne_true]
    exact collectAnalyses_nil_of_fail env ps fun q hq => h q (List.mem_cons_of_mem p hq)

theorem analyze_jpg_paths (env : PipelineEnv) (ps : List String) :
    (analyze_multiple_images env ps).jpg_image_paths = collectJpgPaths env ps := by
  unfold analyze_multiple_images
  dsimp only
  split
  · rfl
  · split <;> rfl

theorem collectAnalyses_cons (env : PipelineEnv) (p : String) (ps : List String) :
    collectAnalyses env (p :: ps) =
      (if (env.recognize (env.ensureJpg p)).success then
        [(env.recognize (env.ensureJpg p)).analysis]
      else []) ++ collectAnalyses env ps := by
  simp only [collectAnalyses]
  split <;> simp

/-! ## Claim theorems -/

/--
C1: whenever `analyze_multiple_images` returns normally, the two-name
unpacking in `main` of `narration_text, jpg_image_paths = narration_result`
raises `ValueError` (the function always returns a 3-tuple), the exception
is caught by the top-level handler of `main`, the run never reaches audio
generation or presentation creation, and the process exits with code 0.
-/
theorem main_unpack_raises_and_exits_zero (ttsOk : Bool)
    (narrationResult : String × List String × List Artifact) :
    pyUnpack2 (narrationResultTuple narrationResult) = .error .valueError ∧
    main_after_analyze ttsOk narrationResult =
      { reachedAudio := false, reachedPresentation := false, exitCode := 0 } :=
  ⟨rfl, rfl⟩

/--
C2: when every recognition call fails, `analyze_multiple_images` returns
the sentinel narration `"Unable to analyze any images."`, an empty
artifact list, and the full normalized-path sequence for all inputs,
without calling extraction or composition.
-/
theorem analyze_all_fail_sentinel (env : PipelineEnv) (image_paths : List String)
    (hfail : ∀ p ∈ image_paths, (env.recognize (env.ensureJpg p)).success = false) :
    (analyze_multiple_images env image_paths).narration =
        "Unable to analyze any images." ∧
    (analyze_multiple_images env image_paths).artifacts = [] ∧
    (analyze_multiple_images env image_paths).jpg_image_paths =
        image_paths.map env.ensureJpg ∧
    (analyze_multiple_images env image_paths).extractCalls = 0 ∧
    (analyze_multiple_images env image_paths).composeCalls = 0 := by
  have hnil := collectAnalyses_nil_of_fail env image_paths hfail
  unfold analyze_multiple_images
  dsimp only
  rw [hnil]
  simp [collectJpgPaths_eq_map]

/-- Closed-form instance of `analyze_all_fail_sentinel`. -/
theorem analyze_all_fail_sentinel_witness :
    (∀ p ∈ ["a.png", "b.jpg"],
      ((PipelineEnv.mk (· ++ ".jpg") (fun _ => ⟨false, "boom"⟩) (fun _ => [])
        (fun _ => .ok "styled")).recognize
        ((PipelineEnv.mk (· ++ ".jpg") (fun _ => ⟨false, "boom"⟩) (fun _ => [])
          (fun _ => .ok "styled")).ensureJpg p)).success = false) ∧
    (analyze_multiple_images
      (PipelineEnv.mk (· ++ ".jpg") (fun _ => ⟨false, "boom"⟩) (fun _ => [])
        (fun _ => .ok "styled")) ["a.png", "b.jpg"]).narration =
      "Unable to analyze any images." :=
  ⟨fun _ _ => rfl,
    (analyze_all_fail_sentinel
      (PipelineEnv.mk (· ++ ".jpg") (fun _ => ⟨false, "boom"⟩) (fun _ => [])
        (fun _ => .ok "styled")) ["a.png", "b.jpg"] (fun _ _ => rfl)).1⟩

/--
C3: the normalized-path sequence returned by `analyze_multiple_images`
has the same length as the input and carries the normalized i-th input at
position i, however many recognitions fail.
-/
theorem analyze_paths_same_length_and_order (env : PipelineEnv)
    (image_paths : List String) :
    (analyze_multiple_images env image_paths).jpg_image_paths.length =
        image_paths.length ∧
    (analyze_multiple_images env image_paths).jpg_image_paths =
        image_paths.map env.ensureJpg := by
  have h : (analyze_multiple_images env image_paths).jpg_image_paths =
      image_paths.map env.ensureJpg := by
    rw [analyze_jpg_paths, collectJpgPaths_eq_map]
  exact ⟨by rw [h, List.length_map], h⟩

/--
C6: when the narration-composition model call fails,
`analyze_multiple_images` returns as narration exactly the successful
findings joined by the two-character separator `"\n\n"`, in input order.
(Composition is total in this embedding: it always returns a string, never
propagating an exception.)
-/
theorem compose_failure_joins_findings (env : PipelineEnv)
    (image_paths : List String)
    (hne : collectAnalyses env image_paths ≠ [])
    (hfail : env.composeOracle (collectAnalyses env image_paths) = .error ()) :
    (analyze_multiple_images env image_paths).narration =
      String.intercalate "\n\n" (collectAnalyses env image_paths) ∧
    ("\n\n" : String).length = 2 := by
  refine ⟨?_, rfl⟩
  unfold analyze_multiple_images
  dsimp only
  rw [if_neg (by simpa using hne), hfail]

/-- Closed-form instance of `compose_failure_joins_findings`. -/
theorem compose_failure_joins_findings_witness :
    (collectAnalyses
      (PipelineEnv.mk id (fun p => ⟨true, "finding " ++ p⟩) (fun _ => [])
        (fun _ => .error ())) ["a.jpg", "b.jpg"] ≠ []) ∧
    (analyze_multiple_images
      (PipelineEnv.mk id (fun p => ⟨true, "finding " ++ p⟩) (fun _ => [])
        (fun _ => .error ())) ["a.jpg", "b.jpg"]).narration =
      String.intercalate "\n\n"
        (collectAnalyses
          (PipelineEnv.mk id (fun p => ⟨true, "finding " ++ p⟩) (fun _ => [])
            (fun _ => .error ())) ["a.jpg", "b.jpg"]) :=
  ⟨by decide,
    (compose_failure_joins_findings
      (PipelineEnv.mk id (fun p => ⟨true, "finding " ++ p⟩) (fun _ => [])
        (fun _ => .error ())) ["a.jpg", "b.jpg"] (by decide) rfl).1⟩

/--
C10: each input image contributes at most one finding — exactly one when
its recognition succeeds, zero when it fails — so the number of collected
findings never exceeds the number of inputs, while the normalized
path of every input is carried forward.
-/
theorem findings_at_most_one_per_image (env : PipelineEnv)
    (image_paths : List String) :
    (collectAnalyses env image_paths).length ≤ image_paths.length ∧
    (∀ p ps, collectAnalyses env (p :: ps) =
      (if (env.recognize (env.ensureJpg p)).success then
        [(env.recognize (env.ensureJpg p)).analysis]
      else []) ++ collectAnalyses env ps) ∧
    (analyze_multiple_images env image_paths).jpg_image_paths =
      image_paths.map env.ensureJpg := by
  refine ⟨collectAnalyses_length_le env image_paths,
    fun p ps => collectAnalyses_cons env p ps, ?_⟩
  rw [analyze_jpg_paths, collectJpgPaths_eq_map]

/--
C4: the extraction response parser accepts all three documented JSON
shapes — a bare array, an object whose `artifacts` key holds an array, and
an object whose values are individual records or arrays of records — and
produces the same flattened record sequence from each: the
object-of-records shape flattens its values in key order to exactly the
list the bare-array shape yields.
-/
theorem extraction_parser_three_shapes
    (rs : List Json) (ks : List String)
    (rss : List (List Json)) (ks2 : List String)
    (hrec : ∀ r ∈ rs, isNamedRecord r = true)
    (hlen : ks.length = rs.length)
    (hkeys : ∀ k ∈ ks, k ≠ "artifacts")
    (hlen2 : ks2.length = rss.length)
    (hkeys2 : ∀ k ∈ ks2, k ≠ "artifacts") :
    parseExtractionResult (.arr rs) = .arr rs ∧
    parseExtractionResult (.obj [("artifacts", .arr rs)]) = .arr rs ∧
    parseExtractionResult (.obj (ks.zip rs)) = .arr rs ∧
    parseExtractionResult (.obj (ks2.zip (rss.map Json.arr))) =
      .arr rss.flatten := by
  refine ⟨rfl, rfl, ?_, ?_⟩
  · have hno := dictHas_zip_false ks rs hkeys
    simp only [parseExtractionResult, hno, Bool.false_eq_true, if_false,
      flattenVals_zip ks rs hlen hrec]
    cases rs <;> simp
  · have hno := dictHas_zip_false ks2 (rss.map Json.arr) hkeys2
    simp only [parseExtractionResult, hno, Bool.false_eq_true, if_false,
      flattenVals_zip_arrays ks2 rss hlen2]
    by_cases hE : rss.flatten.isEmpty = true
    · rw [if_pos hE, List.isEmpty_iff.mp hE]
    · rw [if_neg hE]

/-- Closed-form instance of `extraction_parser_three_shapes`. -/
theorem extraction_parser_three_shapes_witness :
    (∀ r ∈ [Json.obj [("name", Json.str "Coin")],
        Json.obj [("name", Json.str "Sword")]], isNamedRecord r = true) ∧
    (∀ k ∈ ["first", "second"], k ≠ "artifacts") ∧
    (∀ k ∈ ["items"], k ≠ "artifacts") ∧
    parseExtractionResult
        (.obj (["first", "second"].zip
          [Json.obj [("name", Json.str "Coin")],
            Json.obj [("name", Json.str "Sword")]])) =
      .arr [Json.obj [("name", Json.str "Coin")],
        Json.obj [("name", Json.str "Sword")]] :=
  ⟨by decide, by decide, by decide,
    (extraction_parser_three_shapes
      [Json.obj [("name", Json.str "Coin")], Json.obj [("name", Json.str "Sword")]]
      ["first", "second"]
      [[Json.obj [("name", Json.str "Coin")]]] ["items"]
      (by decide) (by decide) (by decide) (by decide) (by decide)).2.2.1⟩

/--
C5: in the keyword-scan fallback of `extract_artifacts`, an input of one
finding whose lowercased text contains `"sword"` yields exactly one record
whose name field equals `"Sword"`.
-/
theorem fallback_sword_exactly_one (s : String)
    (h : pyIn "sword" (pyLower s) = true) :
    (fallbackExtract [s]).countP (fun a => a.name == "Sword") = 1 := by
  simp only [fallbackExtract, List.map_cons, List.map_nil, List.flatten_cons,
    List.flatten_nil, List.append_nil]
  unfold keywordRecords
  dsimp only
  simp only [h, if_true, List.countP_append]
  split_ifs <;> rfl

/-- Closed-form instance of `fallback_sword_exactly_one`. -/
theorem fallback_sword_exactly_one_witness :
    pyIn "sword" (pyLower "A rusty Sword lies by the pot") = true ∧
    (fallbackExtract ["A rusty Sword lies by the pot"]).countP
      (fun a => a.name == "Sword") = 1 :=
  ⟨by decide, fallback_sword_exactly_one "A rusty Sword lies by the pot" (by decide)⟩

/--
C7: for every path whose lowercased form ends in `.jpg` or `.jpeg`,
`ensure_jpg_format` returns the identical input string and performs no
file I/O (the conversion path is not entered); conversion is attempted
exactly for the other extensions.
-/
theorem ensure_jpg_no_conversion (convert_to_jpg : String → String)
    (image_path : String) :
    (pyEndsWith (pyLower image_path) ".jpg" = true ∨
        pyEndsWith (pyLower image_path) ".jpeg" = true →
      ensure_jpg_format convert_to_jpg image_path = (image_path, false)) ∧
    (pyEndsWith (pyLower image_path) ".jpg" = false →
      pyEndsWith (pyLower image_path) ".jpeg" = false →
      ensure_jpg_format convert_to_jpg image_path =
        (convert_to_jpg image_path, true)) := by
  constructor
  · intro h
    unfold ensure_jpg_format
    dsimp only
    rcases h with h | h <;> simp [h]
  · intro h1 h2
    unfold ensure_jpg_format
    dsimp only
    simp [h1, h2]

/-- Closed-form instance of `ensure_jpg_no_conversion`. -/
theorem ensure_jpg_no_conversion_witness :
    pyEndsWith (pyLower "IMG_042.JPG") ".jpg" = true ∧
    ensure_jpg_format id "IMG_042.JPG" = ("IMG_042.JPG", false) ∧
    pyEndsWith (pyLower "IMG_043.HEIC") ".jpg" = false ∧
    pyEndsWith (pyLower "IMG_043.HEIC") ".jpeg" = false ∧
    ensure_jpg_format id "IMG_043.HEIC" = (id "IMG_043.HEIC", true) :=
  ⟨by decide,
    (ensure_jpg_no_conversion id "IMG_042.JPG").1 (Or.inl (by decide)),
    by decide, by decide,
    (ensure_jpg_no_conversion id "IMG_043.HEIC").2 (by decide) (by decide)⟩

/--
C8: `text_to_speech` hands the speech engine the first 5000 characters of
the input followed by `"..."` (total length 5003) whenever the input is
longer than 5000 characters, and the unchanged input otherwise.
-/
theorem tts_truncates_at_5000 (text : String) :
    (text.length > 5000 →
      text_to_speech_engine_text text = pySlice text 5000 ++ "..." ∧
      (text_to_speech_engine_text text).length = 5003) ∧
    (text.length ≤ 5000 → text_to_speech_engine_text text = text) := by
  constructor
  · intro h
    have he : text_to_speech_engine_text text = pySlice text 5000 ++ "..." := by
      unfold text_to_speech_engine_text
      dsimp only
      rw [if_pos h]
    refine ⟨he, ?_⟩
    rw [he]
    obtain ⟨data⟩ := text
    simp only [String.length_mk] at h
    have hdots : ("..." : String).length = 3 := rfl
    simp only [String.length_append, pySlice, String.length_mk, List.length_take,
      hdots]
    omega
  · intro h
    unfold text_to_speech_engine_text
    dsimp only
    rw [if_neg (by omega)]

/-- Closed-form instance of `tts_truncates_at_5000`. -/
theorem tts_truncates_at_5000_witness :
    (String.mk (List.replicate 5001 'a')).length > 5000 ∧
    (text_to_speech_engine_text (String.mk (List.replicate 5001 'a'))).length =
      5003 ∧
    ("short narration text" : String).length ≤ 5000 ∧
    text_to_speech_engine_text "short narration text" = "short narration text" :=
  ⟨by rw [String.length_mk, List.length_replicate]; omega,
    ((tts_truncates_at_5000 (String.mk (List.replicate 5001 'a'))).1
      (by rw [String.length_mk, List.length_replicate]; omega)).2,
    by decide, (tts_truncates_at_5000 "short narration text").2 (by decide)⟩

/--
C9: `download_recent_images` returns at most `num_images` paths, chosen
from the listed files that are images (by extension or MIME prefix),
ordered most-recently-modified first with ties broken by created time,
given that the listing honours the requested
`modifiedTime desc, createdTime desc` order and carries a non-empty
modified time on every file (files missing a `modifiedTime` are keyed by
`createdTime`, last conjunct).
-/
theorem drive_download_recent (download : DriveFile → Option String)
    (files : List DriveFile) (num_images : Nat)
    (hmod : ∀ f ∈ files, f.modifiedTime ≠ none ∧ f.modifiedTime ≠ some "")
    (hord : files.Pairwise driveListOrder) :
    (download_recent_images download files num_images).length ≤ num_images ∧
    (∀ p ∈ download_recent_images download files num_images,
      ∃ f, f ∈ files ∧ is_image_file f = true ∧ download f = some p) ∧
    (select_recent_image_files files num_images).Pairwise
      (fun a b => pyStrLe (get_timestamp b) (get_timestamp a) = true) ∧
    (select_recent_image_files files num_images).Pairwise recencyOrder ∧
    (∀ f : DriveFile, f.modifiedTime = none → get_timestamp f = f.createdTime) := by
  have hts : ∀ f ∈ files, get_timestamp f = f.modifiedTime.getD "" := by
    intro f hf
    obtain ⟨h1, h2⟩ := hmod f hf
    cases hm : f.modifiedTime with
    | none => exact absurd hm h1
    | some m =>
      simp only [get_timestamp, hm, Option.getD]
      rw [if_neg]
      intro he
      exact h2 (by rw [hm, he])
  have hfilterPairwise : (files.filter is_image_file).Pairwise driveListOrder :=
    hord.filter _
  have hmemf : ∀ f ∈ files.filter is_image_file, f ∈ files :=
    fun f hf => (List.mem_filter.mp hf).1
  have hsorted : (files.filter is_image_file).Pairwise
      (fun a b => pyStrLe (get_timestamp b) (get_timestamp a) = true) := by
    refine List.Pairwise.imp_of_mem ?_ hfilterPairwise
    intro a b ha hb hr
    rw [hts a (hmemf a ha), hts b (hmemf b hb)]
    rcases hr with h | ⟨heq, _⟩
    · exact pyStrLe_of_lt _ _ h
    · rw [heq]
      exact pyStrLe_refl _
  have hsortEq : (files.filter is_image_file).mergeSort
      (fun a b => pyStrLe (get_timestamp b) (get_timestamp a)) =
      files.filter is_image_file :=
    List.mergeSort_of_sorted hsorted
  have hselect : select_recent_image_files files num_images =
      (files.filter is_image_file).take num_images := by
    unfold select_recent_image_files
    dsimp only
    rw [hsortEq]
  refine ⟨?_, ?_, ?_, ?_, ?_⟩
  · unfold download_recent_images
    refine Nat.le_trans (List.length_filterMap_le _ _) ?_
    rw [hselect]
    exact List.length_take_le _ _
  · intro p hp
    unfold download_recent_images at hp
    obtain ⟨f, hf, hdl⟩ := List.mem_filterMap.mp hp
    rw [hselect] at hf
    have hf2 : f ∈ files.filter is_image_file := List.mem_of_mem_take hf
    exact ⟨f, (List.mem_filter.mp hf2).1, (List.mem_filter.mp hf2).2, hdl⟩
  · rw [hselect]
    exact hsorted.sublist (List.take_sublist _ _)
  · have hrec : (files.filter is_image_file).Pairwise recencyOrder := by
      refine List.Pairwise.imp_of_mem ?_ hfilterPairwise
      intro a b ha hb hr
      unfold driveListOrder at hr
      unfold recencyOrder
      rw [hts a (hmemf a ha), hts b (hmemf b hb)]
      exact hr
    rw [hselect]
    exact hrec.sublist (List.take_sublist _ _)
  · intro f hnone
    simp [get_timestamp, hnone]

/-- Closed-form instance of `drive_download_recent`. -/
theorem drive_download_recent_witness :
    (∀ f ∈ driveWitnessFiles, f.modifiedTime ≠ none ∧ f.modifiedTime ≠ some "") ∧
    driveWitnessFiles.Pairwise driveListOrder ∧
    (download_recent_images (fun f => some f.name) driveWitnessFiles 2).length ≤ 2 :=
  ⟨by decide, by decide,
    (drive_download_recent (fun f => some f.name) driveWitnessFiles 2
      (by decide) (by decide)).1⟩

end FLL
